import Mathlib

/-!
Verification model of the leanpub-scraper workflow (src/main.rs).

The program drives a headless browser through a login flow and then scrapes
book links from a dashboard page.  All browser behaviour (navigation results,
in-page script evaluation results) is external to the program, so it is
modelled here as oracle data supplied to the pure workflow functions.  The
pure logic of the program — the anchor extraction, the login verification
comparison, the credential gating, the polling loop, the quote escaping, and
the control flow of the `login` function — is transcribed directly from the
source.

Strings are modelled at the level of their character lists, matching the
character-wise semantics of the JavaScript and Rust string operations used
by the source (`endsWith`, `replace`, `trim`, `includes`, `is_empty`).
-/

namespace LeanpubScraper

/-- The character `/` (used by the extraction pattern logic). -/
def slashChar : Char := Char.ofNat 47

/-- The single-quote character escaped before script embedding. -/
def quoteChar : Char := Char.ofNat 39

/-- The backslash character used by the escaping step. -/
def backslashChar : Char := Char.ofNat 92

/-- Model of `String.endsWith` / JS `endsWith`: the last chars equal `t`. -/
def strEndsWith (s t : String) : Bool :=
  if t.data.length ≤ s.data.length then
    s.data.drop (s.data.length - t.data.length) == t.data
  else false

/-- Model of the JS replace call with the anchored leading-slash regex:
drop one leading slash. -/
def stripLeadingSlash (p : String) : String :=
  match p.data with
  | [] => p
  | c :: rest => if c = slashChar then String.mk rest else p

/-- Drop the last `k` characters of a string (JS suffix removal). -/
def strDropRight (s : String) (k : Nat) : String :=
  String.mk (s.data.take (s.data.length - k))

/-- Model of the JS replace call with the end-anchored overview regex: drop
a trailing `/overview` when present. -/
def stripOverviewSuffix (p : String) : String :=
  if strEndsWith p "/overview" then strDropRight p 9 else p

/-- Whitespace test used by trimming (space, tab, CR, LF). -/
def isSpaceChar (c : Char) : Bool := c.isWhitespace

/-- Model of `trim`: drop whitespace from both ends. -/
def strTrim (s : String) : String :=
  String.mk (((s.data.dropWhile isSpaceChar).reverse.dropWhile isSpaceChar).reverse)

/-- Model of JS `String.includes` for a single character / Rust `contains`. -/
def strContainsChar (s : String) (c : Char) : Bool := s.data.contains c

/-- One anchor element of the scraped page, as seen by the extraction script:
`pathname` is the result of resolving its `href` against the page origin with
the browser URL parser (`new URL(href, location.origin).pathname`); it is
`none` when the URL constructor throws (malformed href, which the script
catches and skips).  `text` is the textContent of the anchor. -/
structure Anchor where
  pathname : Option String
  text : String
deriving DecidableEq, Repr

/-- `BookLink` record from src/main.rs (slug/title pair). -/
structure BookLink where
  slug : String
  title : String
deriving DecidableEq, Repr

/-- The per-anchor filter of the extraction script in `fetch_published_books`
(src/main.rs lines 50-61): keep only pathnames ending in `/overview`, derive
the slug by stripping one leading slash and the `/overview` suffix, reject
empty or multi-segment slugs, take the trimmed text as title, reject empty
titles.  Returns the candidate entry, or `none` when the anchor is skipped. -/
def entryOf (a : Anchor) : Option BookLink :=
  match a.pathname with
  | none => none
  | some p =>
    if strEndsWith p "/overview" then
      let slug := stripOverviewSuffix (stripLeadingSlash p)
      if slug = "" ∨ strContainsChar slug slashChar then none
      else
        let title := strTrim a.text
        if title = "" then none else some ⟨slug, title⟩
    else none

/-- The duplicate-avoiding push of the extraction script:
`if(!out.find(e => e.slug === slug)) out.push(...)`. -/
def pushIfNew (out : List BookLink) (e : BookLink) : List BookLink :=
  if out.any (fun b => b.slug == e.slug) then out else out ++ [e]

/-- One iteration of the `for (const a of anchors)` loop body. -/
def fetchStep (out : List BookLink) (a : Anchor) : List BookLink :=
  match entryOf a with
  | none => out
  | some e => pushIfNew out e

/-- `fetch_published_books` (src/main.rs lines 45-67): the in-page script,
applied to the anchor elements of the page in document order. -/
def fetch_published_books (anchors : List Anchor) : List BookLink :=
  anchors.foldl fetchStep []

/-- Opaque-to-the-program error value of the automation engine
(`playwright::Error`). -/
structure PwError where
  msg : String
deriving DecidableEq, Repr

/-- Expected URL literal of `verify_login` (src/main.rs line 22). -/
def PUBLISHED_URL : String := "https://leanpub.com/author_dashboard/books/published"

/-- Expected title literal of `verify_login` (src/main.rs line 32). -/
def expectedTitle : String := "Leanpub - Your Books"

/-- Engine behaviour seen by `verify_login`: the outcome of the navigation
to the published-books page, and the results of the two page evaluations
(`location.href` and `document.title`), where `none` models a failed
evaluation (the code applies `unwrap_or_default`, turning it into `""`). -/
structure VerifyEnv where
  nav : Except PwError Unit
  urlEval : Option String
  titleEval : Option String
deriving Repr

/-- `verify_login` (src/main.rs lines 21-42): a navigation error returns
`Ok(false)`; otherwise the final URL and the trimmed title are compared
against the expected literals. -/
def verify_login (env : VerifyEnv) : Except PwError Bool :=
  match env.nav with
  | .error _ => .ok false
  | .ok _ =>
    let final_url := env.urlEval.getD ""
    let published_title := env.titleEval.getD ""
    .ok ((final_url == PUBLISHED_URL) && (strTrim published_title == expectedTitle))

/-- `FormField` record from src/main.rs. -/
structure FormField where
  name : String
  value : String
  field_type : String
deriving DecidableEq, Repr

/-- The two credential environment variables; `none` models an unset
variable (the code applies `unwrap_or_default`, turning it into `""`). -/
structure CredEnv where
  leanpubEmail : Option String
  leanpubPassword : Option String
deriving Repr

/-- Rust `email.replace(quote-char, backslash-quote)` on the character
list: every single quote becomes backslash followed by quote. -/
def replaceQuoteAux : List Char → List Char
  | [] => []
  | c :: cs =>
    if c = quoteChar then backslashChar :: quoteChar :: replaceQuoteAux cs
    else c :: replaceQuoteAux cs

/-- The credential-escaping step of `login` (src/main.rs lines 144-145). -/
def escapeSingleQuotes (s : String) : String := String.mk (replaceQuoteAux s.data)

/-- Value of the captcha-field evaluation at a given attempt: a failed
evaluation (`none`) is absorbed to `""` by `unwrap_or_default`. -/
def captchaVal (oracle : Nat → Option String) (i : Nat) : String :=
  (oracle i).getD ""

/-- The `for attempt in 0..30` polling loop of `login` (src/main.rs lines
82-103), parametrised by the remaining iteration budget.  Returns the number
of evaluations performed and whether a non-empty value was observed. -/
def captchaPollAux (oracle : Nat → Option String) : Nat → Nat → Nat × Bool
  | attempt, 0 => (attempt, false)
  | attempt, fuel + 1 =>
    if captchaVal oracle attempt = "" then captchaPollAux oracle (attempt + 1) fuel
    else (attempt + 1, true)

/-- The captcha polling loop with its full budget of 30 attempts. -/
def captchaPoll (oracle : Nat → Option String) : Nat × Bool :=
  captchaPollAux oracle 0 30

/-- Containment of one character list in another at any position. -/
def listIsInfixOf (sub : List Char) : List Char → Bool
  | [] => sub.isEmpty
  | c :: rest => sub.isPrefixOf (c :: rest) || listIsInfixOf sub rest

/-- Substring containment (JS `String.includes`). -/
def strContainsSub (s sub : String) : Bool := listIsInfixOf sub.data s.data

/-- Predicate of the post-submit URL polling loop (src/main.rs line 174). -/
def authUrlHit (url : String) : Bool :=
  strContainsSub url "author_dashboard" || strContainsSub url "/u/"

/-- The `for _ in 0..20` post-submit polling loop of `login` (src/main.rs
lines 171-180); same shape as the captcha loop with a budget of 20. -/
def authPollAux (oracle : Nat → Option String) : Nat → Nat → Nat × Bool
  | attempt, 0 => (attempt, false)
  | attempt, fuel + 1 =>
    if authUrlHit ((oracle attempt).getD "") then (attempt + 1, true)
    else authPollAux oracle (attempt + 1) fuel

/-- The post-submit URL polling loop with its budget of 20 attempts. -/
def authPoll (oracle : Nat → Option String) : Nat × Bool :=
  authPollAux oracle 0 20

/-- The steps of the `login` workflow that interact with the page, in the
order the source performs them. -/
inductive Step
  | initNavStep
  | captchaPollStep
  | inspectFields
  | readFormAction
  | fillSubmitStep
  | pollAuthStep
  | readTitle
  | readIndicator
  | verifyStep
  | extractStep
deriving DecidableEq, Repr

/-- Engine behaviour seen by `login` after the page is opened: one field per
fallible engine interaction of src/main.rs lines 77-208.  `Except` fields
are results whose errors the code propagates with the question-mark
operator; `Option` fields are evaluation results whose errors the code
absorbs (`unwrap_or_default` / `unwrap_or(None)`). -/
structure Engine where
  initNav : Except PwError Unit
  captchaEval : Nat → Option String
  fieldsEval : Except PwError (List FormField)
  formActionEval : Except PwError (Option String)
  fillEval : Except PwError Bool
  authUrlEval : Nat → Option String
  titleEval : Option String
  indicatorEval : Option (Option String)
  verifyEnv : VerifyEnv
  fetchAnchors : List Anchor
  fetchErr : Option PwError

/-- `fetch_published_books` as called on the live page: the evaluation may
fail in the engine, otherwise it returns the extraction over the anchors of
the dashboard page. -/
def fetchOnPage (eng : Engine) : Except PwError (List BookLink) :=
  match eng.fetchErr with
  | some e => .error e
  | none => .ok (fetch_published_books eng.fetchAnchors)

/-- `login` (src/main.rs lines 70-209), from the first page navigation on
(browser start-up, lines 71-76, is presupposed by supplying an `Engine`).
Returns the list of page-interaction steps that executed, in order, and the
result of the function.  Control flow is transcribed from the source:
line 77 propagates navigation errors; the captcha loop absorbs evaluation
errors; lines 117 and 127 propagate; empty credentials return early with
`Ok(())`; line 163 propagates; the post-submit poll, title and indicator
reads absorb errors; line 191 propagates; a verification failure returns
`Ok(())`; an extraction error is only logged. -/
def loginModel (cred : CredEnv) (eng : Engine) : List Step × Except PwError Unit :=
  match eng.initNav with
  | .error e => ([.initNavStep], .error e)
  | .ok _ =>
    let _capt := captchaPoll eng.captchaEval
    match eng.fieldsEval with
    | .error e => ([.initNavStep, .captchaPollStep, .inspectFields], .error e)
    | .ok _fields =>
      match eng.formActionEval with
      | .error e =>
        ([.initNavStep, .captchaPollStep, .inspectFields, .readFormAction], .error e)
      | .ok _action =>
        let steps2 : List Step :=
          [.initNavStep, .captchaPollStep, .inspectFields, .readFormAction]
        let email := cred.leanpubEmail.getD ""
        let password := cred.leanpubPassword.getD ""
        if email = "" ∨ password = "" then (steps2, .ok ())
        else
          let _safeEmail := escapeSingleQuotes email
          let _safePassword := escapeSingleQuotes password
          match eng.fillEval with
          | .error e => (steps2 ++ [.fillSubmitStep], .error e)
          | .ok _filled =>
            let _auth := authPoll eng.authUrlEval
            let _title := eng.titleEval.getD ""
            let _indicator := eng.indicatorEval.getD none
            let steps3 := steps2 ++
              [.fillSubmitStep, .pollAuthStep, .readTitle, .readIndicator]
            if email = "" then (steps3, .ok ())
            else
              match verify_login eng.verifyEnv with
              | .error e => (steps3 ++ [.verifyStep], .error e)
              | .ok true =>
                match fetchOnPage eng with
                | .ok _list => (steps3 ++ [.verifyStep, .extractStep], .ok ())
                | .error _e => (steps3 ++ [.verifyStep, .extractStep], .ok ())
              | .ok false => (steps3 ++ [.verifyStep], .ok ())

/-! ### Helper lemmas about the extraction fold -/

theorem foldl_fetchStep_eq (anchors : List Anchor) (out : List BookLink) :
    List.foldl fetchStep out anchors =
      List.foldl pushIfNew out (anchors.filterMap entryOf) := by
  induction anchors generalizing out with
  | nil => rfl
  | cons a rest ih =>
    cases h : entryOf a with
    | none => simp [List.foldl_cons, List.filterMap_cons, h, fetchStep, ih]
    | some e => simp [List.foldl_cons, List.filterMap_cons, h, fetchStep, ih]

theorem mem_foldl_pushIfNew (es : List BookLink) (out : List BookLink) (b : BookLink) :
    b ∈ List.foldl pushIfNew out es ↔
      b ∈ out ∨ ((∀ x ∈ out, x.slug ≠ b.slug) ∧
        es.find? (fun e => e.slug == b.slug) = some b) := by
  induction es generalizing out with
  | nil => simp
  | cons e rest ih =>
    rw [List.foldl_cons]
    by_cases hsl : e.slug = b.slug
    · by_cases hae : out.any (fun x => x.slug == e.slug)
      · have hpush : pushIfNew out e = out := by simp [pushIfNew, hae]
        obtain ⟨x, hx, hxe⟩ := List.any_eq_true.mp hae
        have hxb : x.slug = b.slug := by rw [← hsl]; exact beq_iff_eq.mp hxe
        rw [hpush, ih]
        constructor
        · rintro (hb | ⟨hno, _⟩)
          · exact Or.inl hb
          · exact absurd hxb (hno x hx)
        · rintro (hb | ⟨hno, _⟩)
          · exact Or.inl hb
          · exact absurd hxb (hno x hx)
      · have hpush : pushIfNew out e = out ++ [e] := by simp [pushIfNew, hae]
        have hnoOut : ∀ x ∈ out, x.slug ≠ b.slug := by
          intro x hx
          have hxf : ¬ (x.slug == e.slug) = true := by
            intro hxt
            exact hae (List.any_eq_true.mpr ⟨x, hx, hxt⟩)
          rw [← hsl]
          exact fun hc => hxf (beq_iff_eq.mpr hc)
        have hbeq : (e.slug == b.slug) = true := beq_iff_eq.mpr hsl
        have hfind : (e :: rest).find? (fun x => x.slug == b.slug) = some e := by
          simp [List.find?, hbeq]
        rw [hpush, ih, hfind]
        constructor
        · rintro (hb | ⟨hno2, hf⟩)
          · rcases List.mem_append.mp hb with h1 | h2
            · exact Or.inl h1
            · have hbe : b = e := by simpa using h2
              exact Or.inr ⟨hnoOut, by rw [hbe]⟩
          · exact absurd hsl (hno2 e (by simp))
        · rintro (hb | ⟨_, heq⟩)
          · exact Or.inl (List.mem_append_left _ hb)
          · have hbe : e = b := by injection heq
            exact Or.inl (List.mem_append_right _ (by simp [hbe]))
    · have hbeq : (e.slug == b.slug) = false := beq_eq_false_iff_ne.mpr hsl
      have hfind : (e :: rest).find? (fun x => x.slug == b.slug) =
        rest.find? (fun x => x.slug == b.slug) := by
        simp [List.find?, hbeq]
      by_cases hae : out.any (fun x => x.slug == e.slug)
      · have hpush : pushIfNew out e = out := by simp [pushIfNew, hae]
        rw [hpush, ih, hfind]
      · have hpush : pushIfNew out e = out ++ [e] := by simp [pushIfNew, hae]
        rw [hpush, ih, hfind]
        constructor
        · rintro (hb | ⟨hno, hf⟩)
          · rcases List.mem_append.mp hb with h1 | h2
            · exact Or.inl h1
            · have hbe : b = e := by simpa using h2
              exact absurd (by rw [hbe]) hsl
          · exact Or.inr ⟨fun x hx => hno x (List.mem_append_left _ hx), hf⟩
        · rintro (hb | ⟨hno, hf⟩)
          · exact Or.inl (List.mem_append_left _ hb)
          · refine Or.inr ⟨?_, hf⟩
            intro x hx
            rcases List.mem_append.mp hx with h1 | h2
            · exact hno x h1
            · have hxe : x = e := by simpa using h2
              rw [hxe]; exact hsl

theorem mem_fetch_iff_find (anchors : List Anchor) (b : BookLink) :
    b ∈ fetch_published_books anchors ↔
      (anchors.filterMap entryOf).find? (fun e => e.slug == b.slug) = some b := by
  unfold fetch_published_books
  rw [foldl_fetchStep_eq, mem_foldl_pushIfNew]
  simp

theorem nodup_foldl_pushIfNew (es : List BookLink) (out : List BookLink)
    (h : (out.map BookLink.slug).Nodup) :
    ((List.foldl pushIfNew out es).map BookLink.slug).Nodup := by
  induction es generalizing out with
  | nil => simpa using h
  | cons e rest ih =>
    rw [List.foldl_cons]
    by_cases hae : out.any (fun x => x.slug == e.slug)
    · have hpush : pushIfNew out e = out := by simp [pushIfNew, hae]
      rw [hpush]; exact ih out h
    · have hpush : pushIfNew out e = out ++ [e] := by simp [pushIfNew, hae]
      rw [hpush]
      apply ih
      rw [List.map_append]
      refine List.Nodup.append h (List.nodup_singleton _) ?_
      intro s hs hs2
      obtain ⟨x, hx, hxs⟩ := List.mem_map.mp hs
      have hse : s = e.slug := by simpa using hs2
      apply hae
      exact List.any_eq_true.mpr ⟨x, hx, beq_iff_eq.mpr (by rw [hxs, hse])⟩

theorem entryOf_eq_some (a : Anchor) (b : BookLink) (h : entryOf a = some b) :
    b.slug ≠ "" ∧ strContainsChar b.slug slashChar = false ∧ b.title ≠ "" ∧
      b.title = strTrim a.text := by
  cases hp : a.pathname with
  | none => simp [entryOf, hp] at h
  | some p =>
    simp only [entryOf, hp] at h
    by_cases hend : strEndsWith p "/overview"
    · rw [if_pos hend] at h
      by_cases hbad : stripOverviewSuffix (stripLeadingSlash p) = "" ∨
          strContainsChar (stripOverviewSuffix (stripLeadingSlash p)) slashChar
      · rw [if_pos hbad] at h; cases h
      · rw [if_neg hbad] at h
        by_cases ht : strTrim a.text = ""
        · rw [if_pos ht] at h; cases h
        · rw [if_neg ht] at h
          have hb : b = ⟨stripOverviewSuffix (stripLeadingSlash p), strTrim a.text⟩ := by
            injection h with h2; exact h2.symm
          push_neg at hbad
          refine ⟨?_, ?_, ?_, ?_⟩
          · rw [hb]; exact hbad.1
          · rw [hb]
            exact Bool.not_eq_true _ ▸ (by exact fun hc => hbad.2 hc)
          · rw [hb]; exact ht
          · rw [hb]
    · rw [if_neg hend] at h; cases h

theorem fetch_skip (pre post : List Anchor) (a : Anchor) (h : entryOf a = none) :
    fetch_published_books (pre ++ a :: post) = fetch_published_books (pre ++ post) := by
  unfold fetch_published_books
  rw [foldl_fetchStep_eq, foldl_fetchStep_eq]
  simp [List.filterMap_append, List.filterMap_cons, h]

theorem find?_append_of_none {α : Type} (p : α → Bool) (l1 l2 : List α)
    (h : l1.find? p = none) : (l1 ++ l2).find? p = l2.find? p := by
  induction l1 with
  | nil => simp
  | cons x xs ih =>
    cases hpx : p x with
    | true => simp [List.find?, hpx] at h
    | false =>
      simp only [List.find?, hpx] at h
      rw [List.cons_append]
      simp only [List.find?, hpx]
      exact ih h

/-! ### Claim theorems -/

/-- Claim C1: for every set of anchor elements, `fetch_published_books`
returns exactly one `BookLink` per unique slug derived from a qualifying
anchor (pathname resolving, ending in `/overview`, single-segment non-empty
slug, non-empty trimmed text); non-qualifying anchors (multi-segment or
empty slugs, non-matching suffixes, empty trimmed text — all the cases in
which `entryOf` is `none`) contribute no entry; every returned slug is
non-empty and free of `/` and every returned title is non-empty. -/
theorem claim_C1 (anchors : List Anchor) :
    ((fetch_published_books anchors).map BookLink.slug).Nodup ∧
    (∀ s, (∃ b ∈ fetch_published_books anchors, b.slug = s) ↔
      ∃ a ∈ anchors, ∃ e, entryOf a = some e ∧ e.slug = s) ∧
    (∀ b ∈ fetch_published_books anchors,
      b.slug ≠ "" ∧ strContainsChar b.slug slashChar = false ∧ b.title ≠ "") ∧
    (∀ pre a post, entryOf a = none →
      fetch_published_books (pre ++ a :: post) = fetch_published_books (pre ++ post)) := by
  refine ⟨?_, ?_, ?_, ?_⟩
  · unfold fetch_published_books
    rw [foldl_fetchStep_eq]
    exact nodup_foldl_pushIfNew _ _ (by simp)
  · intro s
    constructor
    · rintro ⟨b, hb, rfl⟩
      have hf := (mem_fetch_iff_find anchors b).mp hb
      obtain ⟨a, ha, hae⟩ := List.mem_filterMap.mp (List.mem_of_find?_eq_some hf)
      exact ⟨a, ha, b, hae, rfl⟩
    · rintro ⟨a, ha, e, hae, rfl⟩
      have hmem : e ∈ anchors.filterMap entryOf := List.mem_filterMap.mpr ⟨a, ha, hae⟩
      have hsome : ((anchors.filterMap entryOf).find? (fun x => x.slug == e.slug)).isSome := by
        rw [List.find?_isSome]
        exact ⟨e, hmem, beq_iff_eq.mpr rfl⟩
      obtain ⟨b0, hb0⟩ := Option.isSome_iff_exists.mp hsome
      have hb0slug : b0.slug = e.slug := by
        have hp := List.find?_some hb0
        simpa using hp
      refine ⟨b0, ?_, hb0slug⟩
      rw [mem_fetch_iff_find, hb0slug]
      exact hb0
  · intro b hb
    have hf := (mem_fetch_iff_find anchors b).mp hb
    obtain ⟨a, _, hae⟩ := List.mem_filterMap.mp (List.mem_of_find?_eq_some hf)
    obtain ⟨h1, h2, h3, _⟩ := entryOf_eq_some a b hae
    exact ⟨h1, h2, h3⟩
  · intro pre a post h
    exact fetch_skip pre post a h

/-- Witness for C1: the skip clause applied at a concrete multi-segment
anchor placed between two qualifying anchors. -/
theorem claim_C1_witness :
    fetch_published_books ([⟨some "/aaa/overview", "A"⟩] ++
        ⟨some "/x/y/overview", "Nested"⟩ :: [⟨some "/bbb/overview", "B"⟩]) =
      fetch_published_books ([⟨some "/aaa/overview", "A"⟩] ++ [⟨some "/bbb/overview", "B"⟩]) :=
  (claim_C1 []).2.2.2 [⟨some "/aaa/overview", "A"⟩] ⟨some "/x/y/overview", "Nested"⟩
    [⟨some "/bbb/overview", "B"⟩] (by decide)

/-- Claim C5: when several anchors yield the same slug, the output contains
that slug exactly once, paired with the title produced by the first such
anchor in document order; later duplicates are ignored. -/
theorem claim_C5 (anchors pre post : List Anchor) (a : Anchor) (b dup : BookLink)
    (hsplit : anchors = pre ++ a :: post)
    (ha : entryOf a = some b)
    (hfirst : ∀ a2 ∈ pre, ∀ e, entryOf a2 = some e → e.slug ≠ b.slug)
    (_hdup : ∃ a2 ∈ post, entryOf a2 = some dup ∧ dup.slug = b.slug) :
    b ∈ fetch_published_books anchors ∧
      ∀ b2 ∈ fetch_published_books anchors, b2.slug = b.slug → b2 = b := by
  have hkey : (anchors.filterMap entryOf).find? (fun e => e.slug == b.slug) = some b := by
    rw [hsplit, List.filterMap_append, List.filterMap_cons, ha]
    have hnone : (pre.filterMap entryOf).find? (fun e => e.slug == b.slug) = none := by
      rw [List.find?_eq_none]
      intro e he
      obtain ⟨a2, ha2, hae2⟩ := List.mem_filterMap.mp he
      exact fun hc => hfirst a2 ha2 e hae2 (beq_iff_eq.mp hc)
    rw [find?_append_of_none _ _ _ hnone]
    simp [List.find?]
  constructor
  · rw [mem_fetch_iff_find]
    exact hkey
  · intro b2 hb2 hslug
    have hf2 := (mem_fetch_iff_find anchors b2).mp hb2
    rw [hslug] at hf2
    rw [hf2] at hkey
    exact Option.some.inj hkey

/-- Witness for C5: two anchors with the same slug; the first title is the
one retained. -/
theorem claim_C5_witness :
    (⟨"my-book", "My Book"⟩ : BookLink) ∈
      fetch_published_books [⟨some "/my-book/overview", "My Book"⟩,
        ⟨some "/my-book/overview", "Duplicate"⟩] :=
  (claim_C5 [⟨some "/my-book/overview", "My Book"⟩, ⟨some "/my-book/overview", "Duplicate"⟩]
    [] [⟨some "/my-book/overview", "Duplicate"⟩] ⟨some "/my-book/overview", "My Book"⟩
    ⟨"my-book", "My Book"⟩ ⟨"my-book", "Duplicate"⟩ rfl (by decide)
    (by intro a2 h; cases h)
    ⟨⟨some "/my-book/overview", "Duplicate"⟩, by simp, by decide, rfl⟩).1

/-- Claim C8: on the literal anchor input of the spec scenario, extraction
returns exactly one entry, the first `my-book` anchor with its title. -/
theorem claim_C8 :
    fetch_published_books [⟨some "/my-book/overview", "My Book"⟩,
      ⟨some "/my-book/overview", "Duplicate"⟩,
      ⟨some "/other/sub/overview", "Nested"⟩,
      ⟨some "/empty/overview", ""⟩] = [⟨"my-book", "My Book"⟩] := by decide

/-- Claim C2: `verify_login` returns `Ok(true)` exactly when the URL read
after navigation equals the published-books literal and the trimmed title
equals `Leanpub - Your Books`; any mismatch yields `Ok(false)`; the untrimmed
title scenario of the spec verifies as success. -/
theorem claim_C2 :
    (∀ u t, verify_login ⟨.ok (), some u, some t⟩ = .ok true ↔
      u = PUBLISHED_URL ∧ strTrim t = expectedTitle) ∧
    (∀ u t, ¬(u = PUBLISHED_URL ∧ strTrim t = expectedTitle) →
      verify_login ⟨.ok (), some u, some t⟩ = .ok false) ∧
    verify_login ⟨.ok (), some PUBLISHED_URL, some " Leanpub - Your Books "⟩ = .ok true := by
  refine ⟨?_, ?_, ?_⟩
  · intro u t
    simp [verify_login]
  · intro u t h
    have hb : ((u == PUBLISHED_URL) && (strTrim t == expectedTitle)) = false := by
      rcases not_and_or.mp h with h1 | h1
      · simp [beq_eq_false_iff_ne.mpr h1]
      · simp [beq_eq_false_iff_ne.mpr h1]
    simp [verify_login, hb]
  · rfl

/-- Witness for C2: a mismatching URL yields `Ok(false)`. -/
theorem claim_C2_witness :
    verify_login ⟨.ok (), some "https://example.com/", some "nope"⟩ = .ok false :=
  claim_C2.2.1 "https://example.com/" "nope" (by decide)

/-- Claim C7: a navigation failure inside the verification step is caught
and yields `Ok(false)`, never a propagated error. -/
theorem claim_C7 (env : VerifyEnv) (e : PwError) (h : env.nav = .error e) :
    verify_login env = .ok false := by
  simp [verify_login, h]

/-- Witness for C7 at a concrete failing navigation. -/
theorem claim_C7_witness :
    verify_login ⟨.error ⟨"nav failed"⟩, some "x", some "y"⟩ = .ok false :=
  claim_C7 ⟨.error ⟨"nav failed"⟩, some "x", some "y"⟩ ⟨"nav failed"⟩ rfl

/-- Claim C10: `verify_login` never returns an error: every behaviour of the
engine produces some `Ok` result, and a failed URL or title evaluation is
absorbed as the empty string, which yields `Ok(false)`. -/
theorem claim_C10 (env : VerifyEnv) :
    (∃ b, verify_login env = .ok b) ∧
    ((env.urlEval = none ∨ env.titleEval = none) → verify_login env = .ok false) := by
  constructor
  · cases hn : env.nav with
    | error e => exact ⟨false, by simp [verify_login, hn]⟩
    | ok u =>
      exact ⟨(env.urlEval.getD "" == PUBLISHED_URL) &&
        (strTrim (env.titleEval.getD "") == expectedTitle), by simp [verify_login, hn]⟩
  · intro h
    cases hn : env.nav with
    | error e => simp [verify_login, hn]
    | ok u =>
      rcases h with h | h
      · have hurl : (("" : String) == PUBLISHED_URL) = false := by decide
        simp [verify_login, hn, h, hurl]
      · have htitle : (strTrim "" == expectedTitle) = false := by decide
        simp [verify_login, hn, h, htitle]

/-- Witness for C10: a failed URL evaluation yields `Ok(false)`. -/
theorem claim_C10_witness :
    verify_login ⟨.ok (), none, some "t"⟩ = .ok false :=
  (claim_C10 ⟨.ok (), none, some "t"⟩).2 (Or.inl rfl)

theorem replaceQuoteAux_append (l1 l2 : List Char) :
    replaceQuoteAux (l1 ++ l2) = replaceQuoteAux l1 ++ replaceQuoteAux l2 := by
  induction l1 with
  | nil => rfl
  | cons c cs ih =>
    by_cases hc : c = quoteChar
    · simp [replaceQuoteAux, hc, ih]
    · simp [replaceQuoteAux, hc, ih]

/-- Claim C9: the credential-escaping step is a character-wise homomorphism
that sends a single quote to backslash-quote and every other character to
itself (so backslashes, double quotes and newlines pass unchanged). -/
theorem claim_C9 :
    (∀ s1 s2 : String, escapeSingleQuotes (s1 ++ s2) =
      escapeSingleQuotes s1 ++ escapeSingleQuotes s2) ∧
    escapeSingleQuotes (String.mk [quoteChar]) = String.mk [backslashChar, quoteChar] ∧
    (∀ c : Char, c ≠ quoteChar → escapeSingleQuotes (String.mk [c]) = String.mk [c]) := by
  refine ⟨?_, ?_, ?_⟩
  · intro s1 s2
    cases s1 with
    | mk d1 =>
      cases s2 with
      | mk d2 =>
        show String.mk (replaceQuoteAux (d1 ++ d2)) =
          String.mk (replaceQuoteAux d1) ++ String.mk (replaceQuoteAux d2)
        rw [replaceQuoteAux_append]
        rfl
  · decide
  · intro c hc
    show String.mk (replaceQuoteAux [c]) = String.mk [c]
    simp [replaceQuoteAux, hc]

/-- Witness for C9: the letter `a` is left unchanged. -/
theorem claim_C9_witness :
    escapeSingleQuotes (String.mk [Char.ofNat 97]) = String.mk [Char.ofNat 97] :=
  claim_C9.2.2 (Char.ofNat 97) (by decide)

theorem captchaPollAux_stop (oracle : Nat → Option String) (m : Nat) :
    ∀ start fuel : Nat, m < fuel →
      (∀ j, j < m → captchaVal oracle (start + j) = "") →
      captchaVal oracle (start + m) ≠ "" →
      captchaPollAux oracle start fuel = (start + m + 1, true) := by
  induction m with
  | zero =>
    intro start fuel hf h0 hm
    cases fuel with
    | zero => omega
    | succ f =>
      have hm0 : ¬ captchaVal oracle start = "" := by simpa using hm
      simp [captchaPollAux, hm0]
  | succ k ih =>
    intro start fuel hf h0 hm
    cases fuel with
    | zero => omega
    | succ f =>
      have h00 : captchaVal oracle start = "" := by simpa using h0 0 (by omega)
      simp only [captchaPollAux, h00, if_pos]
      have hrec := ih (start + 1) f (by omega)
        (fun j hj => by
          have hv := h0 (j + 1) (by omega)
          rw [show start + (j + 1) = start + 1 + j from by omega] at hv
          exact hv)
        (by
          have hv := hm
          rw [show start + (k + 1) = start + 1 + k from by omega] at hv
          exact hv)
      rw [hrec]
      rw [show start + 1 + k + 1 = start + (k + 1) + 1 from by omega]

theorem captchaPollAux_exhaust (oracle : Nat → Option String) :
    ∀ fuel start : Nat, (∀ j, j < fuel → captchaVal oracle (start + j) = "") →
      captchaPollAux oracle start fuel = (start + fuel, false) := by
  intro fuel
  induction fuel with
  | zero => intro start _; simp [captchaPollAux]
  | succ f ih =>
    intro start h
    have h0 : captchaVal oracle start = "" := by simpa using h 0 (by omega)
    simp only [captchaPollAux, h0, if_pos]
    have hrec := ih (start + 1)
      (fun j hj => by
        have hv := h (j + 1) (by omega)
        rw [show start + (j + 1) = start + 1 + j from by omega] at hv
        exact hv)
    rw [hrec]
    rw [show start + 1 + f = start + (f + 1) from by omega]

/-- Claim C6: if the captcha-field value first becomes non-empty on attempt
`k` with `k ≤ 30` (attempts counted from 1), the polling loop performs
exactly `k` evaluations and stops successfully; if the value never becomes
non-empty, it performs exactly 30 evaluations and ends unsuccessfully (the
loop result is a plain value, never an error, so the workflow proceeds). -/
theorem claim_C6 (oracle : Nat → Option String) (k : Nat) :
    (1 ≤ k → k ≤ 30 → (∀ j, j < k - 1 → captchaVal oracle j = "") →
      captchaVal oracle (k - 1) ≠ "" → captchaPoll oracle = (k, true)) ∧
    ((∀ j, j < 30 → captchaVal oracle j = "") → captchaPoll oracle = (30, false)) := by
  constructor
  · intro h1 h30 hempty hk
    unfold captchaPoll
    have hs := captchaPollAux_stop oracle (k - 1) 0 30 (by omega)
      (fun j hj => by simpa using hempty j hj) (by simpa using hk)
    rw [hs]
    rw [show 0 + (k - 1) + 1 = k from by omega]
  · intro h
    unfold captchaPoll
    have hs := captchaPollAux_exhaust oracle 30 0 (fun j hj => by simpa using h j hj)
    simpa using hs

/-- Witness for C6: an oracle whose field populates on the third attempt. -/
theorem claim_C6_witness :
    captchaPoll (fun i => if i = 2 then some "tok" else none) = (3, true) :=
  (claim_C6 (fun i => if i = 2 then some "tok" else none) 3).1
    (by omega) (by omega) (by decide) (by decide)

/-- Claim C3: with `LEANPUB_EMAIL` or `LEANPUB_PASSWORD` unset or empty
(and the preceding page interactions succeeding), the fill-and-submit step
and all downstream steps do not execute and `login` returns `Ok(())`. -/
theorem claim_C3 (cred : CredEnv) (eng : Engine) (fs : List FormField) (act : Option String)
    (h1 : eng.initNav = .ok ())
    (h2 : eng.fieldsEval = .ok fs)
    (h3 : eng.formActionEval = .ok act)
    (hcred : cred.leanpubEmail.getD "" = "" ∨ cred.leanpubPassword.getD "" = "") :
    (loginModel cred eng).2 = .ok () ∧
    Step.fillSubmitStep ∉ (loginModel cred eng).1 ∧
    Step.pollAuthStep ∉ (loginModel cred eng).1 ∧
    Step.verifyStep ∉ (loginModel cred eng).1 ∧
    Step.extractStep ∉ (loginModel cred eng).1 := by
  have hmodel : loginModel cred eng =
      ([.initNavStep, .captchaPollStep, .inspectFields, .readFormAction], .ok ()) := by
    unfold loginModel
    rw [h1, h2, h3]
    simp only []
    rw [if_pos hcred]
  rw [hmodel]
  exact ⟨rfl, by decide, by decide, by decide, by decide⟩

/-- Engine behaviour in which every interaction succeeds trivially. -/
def engOkEx : Engine :=
  ⟨.ok (), fun _ => none, .ok [], .ok none, .ok true, fun _ => none, none, none,
    ⟨.ok (), none, none⟩, [], none⟩

/-- Witness for C3: unset email, concrete engine. -/
theorem claim_C3_witness :
    (loginModel ⟨none, some "pw"⟩ engOkEx).2 = Except.ok () :=
  (claim_C3 ⟨none, some "pw"⟩ engOkEx [] none rfl rfl rfl (Or.inl rfl)).1

/-- A concrete navigation failure of the engine. -/
def navFailErr : PwError := ⟨"navigation failed"⟩

/-- Engine behaviour whose initial navigation fails. -/
def engNavFailEx : Engine :=
  ⟨.error navFailErr, fun _ => none, .ok [], .ok none, .ok true, fun _ => none, none, none,
    ⟨.ok (), none, none⟩, [], none⟩

/-- Counterexample to claim C4: when the initial navigation to the login
page fails, `login` propagates the error (line 77-79 of src/main.rs uses
the question-mark operator), so the failure is NOT reported as a boolean
success flag for that navigation step. -/
theorem claim_C4_counterexample :
    (loginModel ⟨some "user@example.com", some "pw"⟩ engNavFailEx).2 =
      Except.error navFailErr := rfl

/-- Claim C4 as amended: the navigation inside the verification step
reports failure as `Ok(false)`, while a failure of the initial login-page
navigation is propagated to the caller as a fatal error. -/
theorem claim_C4_amended_thm (env : VerifyEnv) (e : PwError)
    (cred : CredEnv) (eng : Engine) (e2 : PwError) :
    (env.nav = .error e → verify_login env = .ok false) ∧
    (eng.initNav = .error e2 → loginModel cred eng = ([Step.initNavStep], .error e2)) := by
  constructor
  · intro h
    simp [verify_login, h]
  · intro h
    unfold loginModel
    rw [h]

/-- Witness for the amended C4 at concrete inputs. -/
theorem claim_C4_witness :
    verify_login ⟨.error navFailErr, none, none⟩ = .ok false ∧
    loginModel ⟨some "u", some "p"⟩ engNavFailEx = ([Step.initNavStep], .error navFailErr) :=
  ⟨(claim_C4_amended_thm ⟨.error navFailErr, none, none⟩ navFailErr
      ⟨some "u", some "p"⟩ engNavFailEx navFailErr).1 rfl,
   (claim_C4_amended_thm ⟨.error navFailErr, none, none⟩ navFailErr
      ⟨some "u", some "p"⟩ engNavFailEx navFailErr).2 rfl⟩

end LeanpubScraper
